import Mathlib

/-!
Verification of the bitcoin-da adapter core against its specification.

The development shallowly embeds the two source files that the claims are
about:

* src/helpers/parsers.rs — the tagged-envelope witness-script decoder
  (parse_relevant_inscriptions, parse_transaction, get_script) and the
  sender-recovery / authentication routine recover_sender_and_hash_from_tx;
* src/service.rs — the proof builder get_extraction_proof and the two
  polling loops get_block_at and get_finalized_at.

Byte strings are lists of naturals, script instruction streams are lists of
an Instr datatype mirroring what the bitcoin script instruction iterator
yields, and external collaborators (the secp256k1 backend, the transaction
id function, the node RPC client) are abstracted as explicit function
parameters, exactly at the boundary where the source calls into foreign
crates.
-/

namespace BitcoinDa

/-- Opcode value of OP_IF in the bitcoin script opcode table. -/
def OP_IF : Nat := 0x63

/-- Opcode value of OP_ENDIF in the bitcoin script opcode table. -/
def OP_ENDIF : Nat := 0x68

/-- One item yielded by the script instruction iterator
(Script::instructions in parsers.rs line 21): a data push, an opcode, or a
script decoding error (the iterator's Err case, matched by the catch-all
arms of the source). -/
inductive Instr where
  | push (bytes : List Nat)
  | op (code : Nat)
  | err
deriving DecidableEq

/-- The wire-format tag constants imported by parsers.rs from its parent
module (BODY_TAG, ROLLUP_NAME_TAG, SIGNATURE_TAG, PUBLICKEY_TAG,
RANDOM_TAG).  Modelled from the spec: section 6 fixes them as opaque byte
literals defined outside the provided sources, so the parser is
parameterised over their values. -/
structure Tags where
  BODY_TAG : List Nat
  ROLLUP_NAME_TAG : List Nat
  SIGNATURE_TAG : List Nat
  PUBLICKEY_TAG : List Nat
  RANDOM_TAG : List Nat
deriving DecidableEq

/-- ParsedInscription (parsers.rs lines 12-17). -/
structure ParsedInscription where
  body : List Nat
  signature : List Nat
  public_key : List Nat
deriving DecidableEq

/-- One step of the matcher, shape of parsers.rs lines 46-53: consume the
next instruction; it must be an Op equal to OP_IF, otherwise the enclosing
attempt is abandoned (Sum.inr carries the stream from which the outer scan
loop resumes). -/
def expectOpIf : List Instr → Sum (List Instr) (List Instr)
  | [] => Sum.inr []
  | Instr.op c :: rest => if c = OP_IF then Sum.inl rest else Sum.inr rest
  | _ :: rest => Sum.inr rest

/-- One step of the matcher, shape of parsers.rs lines 55-58, 61-66, 68-71,
79-82, 90-93 and 101-104: consume the next instruction; it must be a push
whose bytes equal the expected tag, otherwise the attempt is abandoned. -/
def expectTag (tag : List Nat) : List Instr → Sum (List Instr) (List Instr)
  | [] => Sum.inr []
  | Instr.push b :: rest => if b = tag then Sum.inl rest else Sum.inr rest
  | _ :: rest => Sum.inr rest

/-- One step of the matcher, shape of parsers.rs lines 73-76, 84-87 and
95-98: consume the next instruction; it must be a push, whose bytes are
captured. -/
def capturePush : List Instr → Sum (List Nat × List Instr) (List Instr)
  | [] => Sum.inr []
  | Instr.push b :: rest => Sum.inl (b, rest)
  | _ :: rest => Sum.inr rest

/-- The body-chunk loop of parsers.rs lines 106-121: pushes are concatenated
onto the accumulated body, OP_ENDIF returns the body (Sum.inl), and any
other instruction (or end of stream) breaks back into the outer scan loop
(Sum.inr carries the resume stream). -/
def bodyLoop (acc : List Nat) : List Instr → Sum (List Nat) (List Instr)
  | [] => Sum.inr []
  | Instr.push b :: rest => bodyLoop (acc ++ b) rest
  | Instr.op c :: rest => if c = OP_ENDIF then Sum.inl acc else Sum.inr rest
  | Instr.err :: rest => Sum.inr rest

/-- One iteration of the outer while loop of parse_relevant_inscriptions
(parsers.rs lines 35-121): the instruction i just consumed by the loop head
must be a push equal to BODY_TAG, after which the envelope grammar is
matched step by step against rest.  Sum.inl is a successful parse; Sum.inr
is the stream position from which the while loop resumes after a failed
attempt — every arm of the source that says continue lands here, with the
instructions consumed so far gone. -/
def tryOnce (t : Tags) (rollup_name : List Nat) (i : Instr) (rest : List Instr) :
    Sum ParsedInscription (List Instr) :=
  match i with
  | Instr.push b =>
    if b = t.BODY_TAG then
      match expectOpIf rest with
      | Sum.inr resume => Sum.inr resume
      | Sum.inl r1 =>
        match expectTag t.ROLLUP_NAME_TAG r1 with
        | Sum.inr resume => Sum.inr resume
        | Sum.inl r2 =>
          match expectTag rollup_name r2 with
          | Sum.inr resume => Sum.inr resume
          | Sum.inl r3 =>
            match expectTag t.SIGNATURE_TAG r3 with
            | Sum.inr resume => Sum.inr resume
            | Sum.inl r4 =>
              match capturePush r4 with
              | Sum.inr resume => Sum.inr resume
              | Sum.inl (signature, r5) =>
                match expectTag t.PUBLICKEY_TAG r5 with
                | Sum.inr resume => Sum.inr resume
                | Sum.inl r6 =>
                  match capturePush r6 with
                  | Sum.inr resume => Sum.inr resume
                  | Sum.inl (public_key, r7) =>
                    match expectTag t.RANDOM_TAG r7 with
                    | Sum.inr resume => Sum.inr resume
                    | Sum.inl r8 =>
                      match capturePush r8 with
                      | Sum.inr resume => Sum.inr resume
                      | Sum.inl (_nonce, r9) =>
                        match expectTag t.BODY_TAG r9 with
                        | Sum.inr resume => Sum.inr resume
                        | Sum.inl r10 =>
                          match bodyLoop [] r10 with
                          | Sum.inl body =>
                            Sum.inl ⟨body, signature, public_key⟩
                          | Sum.inr resume => Sum.inr resume
    else Sum.inr rest
  | _ => Sum.inr rest

/-- The while loop of parse_relevant_inscriptions, iterated with explicit
fuel.  Each iteration consumes at least one instruction, so fuel equal to
the stream length (supplied by parse_relevant_inscriptions below, and
justified by the lemma parseLoop_congr) makes the fuel bound unreachable. -/
def parseLoop (t : Tags) (rollup_name : List Nat) : Nat → List Instr → Option ParsedInscription
  | 0, _ => none
  | _ + 1, [] => none
  | fuel + 1, i :: rest =>
    match tryOnce t rollup_name i rest with
    | Sum.inl p => some p
    | Sum.inr resume => parseLoop t rollup_name fuel resume

/-- parse_relevant_inscriptions (parsers.rs lines 31-126): scan the
instruction stream for an envelope relevant to the rollup; none is the
Err(()) result of the source. -/
def parse_relevant_inscriptions (t : Tags) (rollup_name : List Nat)
    (instructions : List Instr) : Option ParsedInscription :=
  parseLoop t rollup_name instructions.length instructions

/-- Outcome of running a fallible Rust function: ok and err mirror the
Result value, while abort marks a reachable panic — an out-of-bounds index
or a failed unwrap — i.e. a process abort. -/
inductive RunResult (α : Type) where
  | ok (a : α)
  | err
  | abort
deriving DecidableEq

/-- A transaction input, reduced to the only part the sources read: the
optional tapscript of its witness (tx.input[0].witness.tapscript()),
already decoded to its instruction stream. -/
structure TxIn where
  tapscript : Option (List Instr)

/-- A transaction, reduced to its input list (the only field parsers.rs
reads). -/
structure Transaction where
  input : List TxIn

/-- get_script (parsers.rs lines 26-28): the tapscript of the first input.
Indexing tx.input[0] panics (abort) when the input list is empty; a first
input without a tapscript is the Err(()) of ok_or. -/
def get_script (tx : Transaction) : RunResult (List Instr) :=
  match tx.input with
  | [] => RunResult.abort
  | i :: _ =>
    match i.tapscript with
    | some s => RunResult.ok s
    | none => RunResult.err

/-- parse_transaction (parsers.rs lines 19-23). -/
def parse_transaction (t : Tags) (tx : Transaction) (rollup_name : List Nat) :
    RunResult ParsedInscription :=
  match get_script tx with
  | RunResult.abort => RunResult.abort
  | RunResult.err => RunResult.err
  | RunResult.ok script =>
    match parse_relevant_inscriptions t rollup_name script with
    | some p => RunResult.ok p
    | none => RunResult.err

/-- The external secp256k1 / hashing primitives called by
recover_sender_and_hash_from_tx, abstracted at the crate boundary:
pubkey_ok is success of PublicKey::from_slice, pubkey_serialize the
serialisation of the parsed key, sig_ok success of
Signature::from_compact, sha256d the double-SHA256 digest computed by
Message::from_hashed_data, and verify the ECDSA verification of
(digest, signature bytes, key bytes). -/
structure Crypto where
  pubkey_ok : List Nat → Bool
  pubkey_serialize : List Nat → List Nat
  sig_ok : List Nat → Bool
  sha256d : List Nat → List Nat
  verify : List Nat → List Nat → List Nat → Bool

/-- recover_sender_and_hash_from_tx (parsers.rs lines 129-147): re-run the
script parse, then unwrap PublicKey::from_slice and
Signature::from_compact — both unwraps panic (abort) when the embedded
bytes are malformed — hash the compressed body with double SHA256, verify,
and on success return the serialised key together with the digest. -/
def recover_sender_and_hash_from_tx (c : Crypto) (t : Tags) (tx : Transaction)
    (rollup_name : List Nat) : RunResult (List Nat × List Nat) :=
  match get_script tx with
  | RunResult.abort => RunResult.abort
  | RunResult.err => RunResult.err
  | RunResult.ok script =>
    match parse_relevant_inscriptions t rollup_name script with
    | none => RunResult.err
    | some pi =>
      if c.pubkey_ok pi.public_key then
        if c.sig_ok pi.signature then
          let message := c.sha256d pi.body
          if c.verify message pi.signature pi.public_key then
            RunResult.ok (c.pubkey_serialize pi.public_key, message)
          else RunResult.err
        else RunResult.abort
      else RunResult.abort

/-- Modelled from the spec: the section-4.1 envelope grammar, as the
reveal-transaction builder (src/helpers/builders.rs, not among the provided
sources) lays it out in a witness script — the eleven tagged pushes
followed by the body chunks and OP_ENDIF. -/
def envelope (t : Tags) (rollup_name signature public_key nonce : List Nat)
    (chunks : List (List Nat)) : List Instr :=
  Instr.push t.BODY_TAG :: Instr.op OP_IF :: Instr.push t.ROLLUP_NAME_TAG ::
  Instr.push rollup_name :: Instr.push t.SIGNATURE_TAG :: Instr.push signature ::
  Instr.push t.PUBLICKEY_TAG :: Instr.push public_key :: Instr.push t.RANDOM_TAG ::
  Instr.push nonce :: Instr.push t.BODY_TAG ::
  (chunks.map Instr.push ++ [Instr.op OP_ENDIF])

/-! Concrete fixtures used by witnesses and counterexamples. -/

/-- Modelled from the spec: arbitrary distinct byte values standing in for
the five opaque tag constants. -/
def tags0 : Tags := ⟨[0], [1], [2], [3], [4]⟩

/-- The byte string of the rollup name "sov-btc" (spec section 8 example
literal). -/
def nameSov : List Nat := [115, 111, 118, 45, 98, 116, 99]

/-- The byte string of the rollup name "sov-btc2". -/
def nameSov2 : List Nat := nameSov ++ [50]

/-- Modelled from the spec: a crypto backend whose well-formedness checks
are the fixed byte-length format checks of section 4.2 — a compressed (or
uncompressed) curve point is 33 (or 65) bytes, a compact ECDSA signature is
64 bytes. -/
def cryptoLen : Crypto where
  pubkey_ok := fun b => b.length == 33 || b.length == 65
  pubkey_serialize := fun b => b
  sig_ok := fun b => b.length == 64
  sha256d := fun _ => List.replicate 32 0
  verify := fun _ _ _ => true

/-- A degenerate crypto backend accepting every field and every signature;
used to instantiate theorems that hold for all backends. -/
def cryptoTrue : Crypto where
  pubkey_ok := fun _ => true
  pubkey_serialize := fun b => b
  sig_ok := fun _ => true
  sha256d := fun b => b
  verify := fun _ _ _ => true

/-- A transaction carrying a well-formed envelope whose public_key field is
a single byte — not a well-formed curve point encoding. -/
def txMalformedKey : Transaction :=
  ⟨[⟨some (envelope tags0 nameSov (List.replicate 64 1) [5] [7] [[1, 2, 3]])⟩]⟩

/-- A transaction carrying a well-formed envelope whose signature field is
a single byte — not a well-formed compact signature encoding — while the
public_key field has a valid 33-byte length. -/
def txMalformedSig : Transaction :=
  ⟨[⟨some (envelope tags0 nameSov [6] (List.replicate 33 2) [7] [[1, 2, 3]])⟩]⟩

/-- A transaction carrying a well-formed envelope for rollup name "sov-btc"
with body [1, 2, 3], signature [9] and public key [8]. -/
def txGood : Transaction :=
  ⟨[⟨some (envelope tags0 nameSov [9] [8] [7] [[1, 2, 3]])⟩]⟩

/-- A transaction with an empty input list. -/
def txNoInput : Transaction := ⟨[]⟩

/-! Embedding of src/service.rs. -/

/-- One entry of BitcoinBlock.txdata as service.rs reads it: the full
bitcoin transaction plus the sender and blob-hash metadata attached at
fetch time.  The transaction type itself is abstract here because
get_extraction_proof only ever feeds it to the external txid function. -/
structure TxWrapper (Tx : Type) where
  transaction : Tx
  sender : List Nat
  blob_hash : List Nat

/-- The txdata walk of get_extraction_proof (service.rs lines 219-234):
for each transaction compute its id (txid abstracts the double-SHA256 of
the serialised transaction, computed by the bitcoin crate); the ids are
collected in order, and every transaction whose id starts with two zero
bytes is pushed onto the completeness proof. -/
def extraction_scan {Tx : Type} (txid : Tx → List Nat) :
    List (TxWrapper Tx) → List (List Nat) × List Tx
  | [] => ([], [])
  | w :: rest =>
    let tx_hash := txid w.transaction
    let p := extraction_scan txid rest
    (tx_hash :: p.1, if tx_hash.take 2 = [0, 0] then w.transaction :: p.2 else p.2)

/-- InclusionMultiProof (spec section 3): the ordered list of all
transaction ids of the block. -/
structure InclusionMultiProof where
  txs : List (List Nat)

/-- get_extraction_proof (service.rs lines 206-239), as a function of the
block's txdata; the source's _blobs argument is unused and omitted. -/
def get_extraction_proof {Tx : Type} (txid : Tx → List Nat)
    (txdata : List (TxWrapper Tx)) : InclusionMultiProof × List Tx :=
  (⟨(extraction_scan txid txdata).1⟩, (extraction_scan txid txdata).2)

/-- One response of the node to a get_block_hash call, as get_block_at
(service.rs lines 143-162) classifies it: success, an error downcastable to
RPCError (carrying its code and message), or any other error. -/
inductive RpcResp (α : Type) where
  | ok (a : α)
  | rpcErr (code : Int) (msg : String)
  | otherErr (msg : String)
deriving DecidableEq

/-- Outcome of a retry loop over a finite prefix of node responses:
got n a — the loop obtained a after n sleep-then-retry iterations;
fatal n msg — the loop returned the error message after n retries;
waiting n — the response prefix was exhausted with the loop still
retrying (the unbounded loop never gave up by itself).  The retry counter
is specification instrumentation; the source keeps no counter. -/
inductive LoopOutcome (α : Type) where
  | got (retries : Nat) (a : α)
  | fatal (retries : Nat) (msg : String)
  | waiting (retries : Nat)
deriving DecidableEq

/-- The block-hash acquisition loop of get_block_at (service.rs lines
142-165): each list element is the node's response to one get_block_hash
call.  RPCError code -8 (height not yet produced) sleeps POLLING_INTERVAL
seconds and retries; an RPCError with any other code returns its message;
a non-RPCError returns the error itself. -/
def hash_loop {α : Type} : List (RpcResp α) → LoopOutcome α
  | [] => LoopOutcome.waiting 0
  | RpcResp.ok h :: _ => LoopOutcome.got 0 h
  | RpcResp.rpcErr code msg :: rest =>
    if code = -8 then
      match hash_loop rest with
      | LoopOutcome.got n a => LoopOutcome.got (n + 1) a
      | LoopOutcome.fatal n m => LoopOutcome.fatal (n + 1) m
      | LoopOutcome.waiting n => LoopOutcome.waiting (n + 1)
    else LoopOutcome.fatal 0 msg
  | RpcResp.otherErr msg :: _ => LoopOutcome.fatal 0 msg

/-- get_block_at (service.rs lines 136-169): run the hash loop over the
node's get_block_hash responses; once a hash is obtained, fetch the full
block with get_block(hash, rollup_name) and return it. -/
def get_block_at {H B : Type} (get_block : H → List Nat → B) (rollup_name : List Nat)
    (responses : List (RpcResp H)) : LoopOutcome B :=
  match hash_loop responses with
  | LoopOutcome.got n h => LoopOutcome.got n (get_block h rollup_name)
  | LoopOutcome.fatal n m => LoopOutcome.fatal n m
  | LoopOutcome.waiting n => LoopOutcome.waiting n

/-- FINALITY_DEPTH (service.rs line 74). -/
def FINALITY_DEPTH : Nat := 4

/-- POLLING_INTERVAL in seconds (service.rs line 75); each retry of the two
loops sleeps this long (wall-clock duration itself is not modelled). -/
def POLLING_INTERVAL : Nat := 10

/-- The finality polling loop of get_finalized_at (service.rs lines
116-126): each list element is one get_block_count response; the loop
breaks at the first response of at least height + FINALITY_DEPTH, yielding
the number of sleeps performed and the unconsumed responses, and none means
the response prefix was exhausted with the loop still polling. -/
def finality_loop (height : Nat) : List Nat → Option (Nat × List Nat)
  | [] => none
  | tip :: rest =>
    if height + FINALITY_DEPTH ≤ tip then some (0, rest)
    else
      match finality_loop height rest with
      | some p => some (p.1 + 1, p.2)
      | none => none

/-- get_finalized_at (service.rs lines 112-132): poll the tip height until
the requested height is FINALITY_DEPTH deep, then fetch the block hash at
that height and the full block. -/
def get_finalized_at {H B : Type} (get_block_hash : Nat → H)
    (get_block : H → List Nat → B) (rollup_name : List Nat) (height : Nat)
    (tips : List Nat) : Option (Nat × B) :=
  match finality_loop height tips with
  | some p => some (p.1, get_block (get_block_hash height) rollup_name)
  | none => none

/-! Structural lemmas about the scan loop. -/

theorem expectOpIf_inl_suffix (l r : List Instr) (h : expectOpIf l = Sum.inl r) :
    r <:+ l := by
  match l with
  | [] => simp [expectOpIf] at h
  | Instr.op c :: rest =>
    simp only [expectOpIf] at h
    split at h
    · simp only [Sum.inl.injEq] at h
      subst h
      exact ⟨[Instr.op c], rfl⟩
    · simp at h
  | Instr.push b :: rest => simp [expectOpIf] at h
  | Instr.err :: rest => simp [expectOpIf] at h

theorem expectOpIf_inr_suffix (l r : List Instr) (h : expectOpIf l = Sum.inr r) :
    r <:+ l := by
  match l with
  | [] =>
    simp only [expectOpIf, Sum.inr.injEq] at h
    subst h
    exact List.suffix_refl _
  | Instr.op c :: rest =>
    simp only [expectOpIf] at h
    split at h
    · simp at h
    · simp only [Sum.inr.injEq] at h
      subst h
      exact ⟨[Instr.op c], rfl⟩
  | Instr.push b :: rest =>
    simp only [expectOpIf, Sum.inr.injEq] at h
    subst h
    exact ⟨[Instr.push b], rfl⟩
  | Instr.err :: rest =>
    simp only [expectOpIf, Sum.inr.injEq] at h
    subst h
    exact ⟨[Instr.err], rfl⟩

theorem expectTag_inl_suffix (tag : List Nat) (l r : List Instr)
    (h : expectTag tag l = Sum.inl r) : r <:+ l := by
  match l with
  | [] => simp [expectTag] at h
  | Instr.push b :: rest =>
    simp only [expectTag] at h
    split at h
    · simp only [Sum.inl.injEq] at h
      subst h
      exact ⟨[Instr.push b], rfl⟩
    · simp at h
  | Instr.op c :: rest => simp [expectTag] at h
  | Instr.err :: rest => simp [expectTag] at h

theorem expectTag_inr_suffix (tag : List Nat) (l r : List Instr)
    (h : expectTag tag l = Sum.inr r) : r <:+ l := by
  match l with
  | [] =>
    simp only [expectTag, Sum.inr.injEq] at h
    subst h
    exact List.suffix_refl _
  | Instr.push b :: rest =>
    simp only [expectTag] at h
    split at h
    · simp at h
    · simp only [Sum.inr.injEq] at h
      subst h
      exact ⟨[Instr.push b], rfl⟩
  | Instr.op c :: rest =>
    simp only [expectTag, Sum.inr.injEq] at h
    subst h
    exact ⟨[Instr.op c], rfl⟩
  | Instr.err :: rest =>
    simp only [expectTag, Sum.inr.injEq] at h
    subst h
    exact ⟨[Instr.err], rfl⟩

theorem capturePush_inl_suffix (l : List Instr) (b : List Nat) (r : List Instr)
    (h : capturePush l = Sum.inl (b, r)) : r <:+ l := by
  match l with
  | [] => simp [capturePush] at h
  | Instr.push bts :: rest =>
    simp only [capturePush, Sum.inl.injEq, Prod.mk.injEq] at h
    obtain ⟨-, h2⟩ := h
    subst h2
    exact ⟨[Instr.push bts], rfl⟩
  | Instr.op c :: rest => simp [capturePush] at h
  | Instr.err :: rest => simp [capturePush] at h

theorem capturePush_inr_suffix (l r : List Instr) (h : capturePush l = Sum.inr r) :
    r <:+ l := by
  match l with
  | [] =>
    simp only [capturePush, Sum.inr.injEq] at h
    subst h
    exact List.suffix_refl _
  | Instr.push b :: rest => simp [capturePush] at h
  | Instr.op c :: rest =>
    simp only [capturePush, Sum.inr.injEq] at h
    subst h
    exact ⟨[Instr.op c], rfl⟩
  | Instr.err :: rest =>
    simp only [capturePush, Sum.inr.injEq] at h
    subst h
    exact ⟨[Instr.err], rfl⟩

theorem bodyLoop_inr_suffix (l : List Instr) (acc : List Nat) (r : List Instr)
    (h : bodyLoop acc l = Sum.inr r) : r <:+ l := by
  induction l generalizing acc with
  | nil =>
    simp only [bodyLoop, Sum.inr.injEq] at h
    subst h
    exact List.suffix_refl _
  | cons i rest ih =>
    cases i with
    | push b =>
      simp only [bodyLoop] at h
      exact (ih (acc ++ b) h).trans ⟨[Instr.push b], rfl⟩
    | op c =>
      simp only [bodyLoop] at h
      split at h
      · simp at h
      · simp only [Sum.inr.injEq] at h
        subst h
        exact ⟨[Instr.op c], rfl⟩
    | err =>
      simp only [bodyLoop, Sum.inr.injEq] at h
      subst h
      exact ⟨[Instr.err], rfl⟩

theorem tryOnce_inr_suffix (t : Tags) (rollup_name : List Nat) (i : Instr)
    (rest resume : List Instr) (h : tryOnce t rollup_name i rest = Sum.inr resume) :
    resume <:+ rest := by
  cases i with
  | err =>
    simp only [tryOnce, Sum.inr.injEq] at h
    subst h
    exact List.suffix_refl _
  | op c =>
    simp only [tryOnce, Sum.inr.injEq] at h
    subst h
    exact List.suffix_refl _
  | push b =>
    simp only [tryOnce] at h
    by_cases hb : b = Tags.BODY_TAG t
    swap
    · rw [if_neg hb] at h
      simp only [Sum.inr.injEq] at h
      subst h
      exact List.suffix_refl _
    rw [if_pos hb] at h
    cases h0 : expectOpIf rest with
    | inr r0 =>
      rw [h0] at h
      simp only [Sum.inr.injEq] at h
      subst h
      exact expectOpIf_inr_suffix rest _ h0
    | inl r1 =>
    rw [h0] at h
    simp only at h
    have s1 : r1 <:+ rest := expectOpIf_inl_suffix rest r1 h0
    cases h1 : expectTag (Tags.ROLLUP_NAME_TAG t) r1 with
    | inr r0 =>
      rw [h1] at h
      simp only [Sum.inr.injEq] at h
      subst h
      exact (expectTag_inr_suffix _ r1 _ h1).trans s1
    | inl r2 =>
    rw [h1] at h
    simp only at h
    have s2 : r2 <:+ rest := (expectTag_inl_suffix _ r1 r2 h1).trans s1
    cases h2 : expectTag rollup_name r2 with
    | inr r0 =>
      rw [h2] at h
      simp only [Sum.inr.injEq] at h
      subst h
      exact (expectTag_inr_suffix _ r2 _ h2).trans s2
    | inl r3 =>
    rw [h2] at h
    simp only at h
    have s3 : r3 <:+ rest := (expectTag_inl_suffix _ r2 r3 h2).trans s2
    cases h3 : expectTag (Tags.SIGNATURE_TAG t) r3 with
    | inr r0 =>
      rw [h3] at h
      simp only [Sum.inr.injEq] at h
      subst h
      exact (expectTag_inr_suffix _ r3 _ h3).trans s3
    | inl r4 =>
    rw [h3] at h
    simp only at h
    have s4 : r4 <:+ rest := (expectTag_inl_suffix _ r3 r4 h3).trans s3
    cases h4 : capturePush r4 with
    | inr r0 =>
      rw [h4] at h
      simp only [Sum.inr.injEq] at h
      subst h
      exact (capturePush_inr_suffix r4 _ h4).trans s4
    | inl pr5 =>
    obtain ⟨sigBytes, r5⟩ := pr5
    rw [h4] at h
    simp only at h
    have s5 : r5 <:+ rest := (capturePush_inl_suffix r4 sigBytes r5 h4).trans s4
    cases h5 : expectTag (Tags.PUBLICKEY_TAG t) r5 with
    | inr r0 =>
      rw [h5] at h
      simp only [Sum.inr.injEq] at h
      subst h
      exact (expectTag_inr_suffix _ r5 _ h5).trans s5
    | inl r6 =>
    rw [h5] at h
    simp only at h
    have s6 : r6 <:+ rest := (expectTag_inl_suffix _ r5 r6 h5).trans s5
    cases h6 : capturePush r6 with
    | inr r0 =>
      rw [h6] at h
      simp only [Sum.inr.injEq] at h
      subst h
      exact (capturePush_inr_suffix r6 _ h6).trans s6
    | inl pr7 =>
    obtain ⟨pkBytes, r7⟩ := pr7
    rw [h6] at h
    simp only at h
    have s7 : r7 <:+ rest := (capturePush_inl_suffix r6 pkBytes r7 h6).trans s6
    cases h7 : expectTag (Tags.RANDOM_TAG t) r7 with
    | inr r0 =>
      rw [h7] at h
      simp only [Sum.inr.injEq] at h
      subst h
      exact (expectTag_inr_suffix _ r7 _ h7).trans s7
    | inl r8 =>
    rw [h7] at h
    simp only at h
    have s8 : r8 <:+ rest := (expectTag_inl_suffix _ r7 r8 h7).trans s7
    cases h8 : capturePush r8 with
    | inr r0 =>
      rw [h8] at h
      simp only [Sum.inr.injEq] at h
      subst h
      exact (capturePush_inr_suffix r8 _ h8).trans s8
    | inl pr9 =>
    obtain ⟨nBytes, r9⟩ := pr9
    rw [h8] at h
    simp only at h
    have s9 : r9 <:+ rest := (capturePush_inl_suffix r8 nBytes r9 h8).trans s8
    cases h9 : expectTag (Tags.BODY_TAG t) r9 with
    | inr r0 =>
      rw [h9] at h
      simp only [Sum.inr.injEq] at h
      subst h
      exact (expectTag_inr_suffix _ r9 _ h9).trans s9
    | inl r10 =>
    rw [h9] at h
    simp only at h
    have s10 : r10 <:+ rest := (expectTag_inl_suffix _ r9 r10 h9).trans s9
    cases h10 : bodyLoop [] r10 with
    | inl body =>
      rw [h10] at h
      simp at h
    | inr r0 =>
      rw [h10] at h
      simp only [Sum.inr.injEq] at h
      subst h
      exact (bodyLoop_inr_suffix r10 [] _ h10).trans s10

theorem parseLoop_congr (t : Tags) (rollup_name : List Nat) :
    ∀ fuel1 fuel2 l, l.length ≤ fuel1 → l.length ≤ fuel2 →
      parseLoop t rollup_name fuel1 l = parseLoop t rollup_name fuel2 l := by
  intro fuel1
  induction fuel1 with
  | zero =>
    intro fuel2 l h1 h2
    have hl : l = [] := List.length_eq_zero.mp (Nat.le_zero.mp h1)
    subst hl
    cases fuel2 <;> rfl
  | succ f ih =>
    intro fuel2 l h1 h2
    cases l with
    | nil => cases fuel2 <;> rfl
    | cons i rest =>
      cases fuel2 with
      | zero => simp at h2
      | succ g =>
        simp only [parseLoop]
        cases htry : tryOnce t rollup_name i rest with
        | inl p => rfl
        | inr resume =>
          have hle : resume.length ≤ rest.length :=
            (tryOnce_inr_suffix t rollup_name i rest resume htry).length_le
          simp only [List.length_cons, Nat.succ_le_succ_iff] at h1 h2
          exact ih g resume (hle.trans h1) (hle.trans h2)

/-- Unfolding of the scan loop at a cons cell: run one attempt; on failure
the scan continues from the attempt's resume point. -/
theorem parse_cons (t : Tags) (rollup_name : List Nat) (i : Instr) (rest : List Instr) :
    parse_relevant_inscriptions t rollup_name (i :: rest) =
      match tryOnce t rollup_name i rest with
      | Sum.inl p => some p
      | Sum.inr resume => parse_relevant_inscriptions t rollup_name resume := by
  show parseLoop t rollup_name (i :: rest).length (i :: rest) = _
  simp only [List.length_cons, parseLoop]
  cases htry : tryOnce t rollup_name i rest with
  | inl p => rfl
  | inr resume =>
    exact parseLoop_congr t rollup_name rest.length resume.length resume
      (tryOnce_inr_suffix t rollup_name i rest resume htry).length_le le_rfl

theorem bodyLoop_chunks (chunks : List (List Nat)) : ∀ acc : List Nat,
    bodyLoop acc (chunks.map Instr.push ++ [Instr.op OP_ENDIF]) =
      Sum.inl (acc ++ chunks.flatten) := by
  induction chunks with
  | nil => intro acc; simp [bodyLoop]
  | cons c cs ih =>
    intro acc
    simp only [List.map_cons, List.cons_append, bodyLoop, List.append_eq]
    rw [ih (acc ++ c), List.flatten_cons, List.append_assoc]

/-- A script that is exactly a section-4.1 envelope for the queried rollup
name decodes to the concatenated body chunks together with the embedded
signature and public key, for every choice of tag constants. -/
theorem parse_envelope (t : Tags) (rollup_name signature public_key nonce : List Nat)
    (chunks : List (List Nat)) :
    parse_relevant_inscriptions t rollup_name
        (envelope t rollup_name signature public_key nonce chunks) =
      some ⟨chunks.flatten, signature, public_key⟩ := by
  rw [envelope, parse_cons]
  simp [tryOnce, expectOpIf, expectTag, capturePush, OP_IF, bodyLoop_chunks]

/-- Characterisation of a successful parse_transaction: a first-input
tapscript exists and the scan finds an envelope in it. -/
theorem parse_transaction_ok (t : Tags) (tx : Transaction) (rollup_name : List Nat)
    (pi : ParsedInscription) :
    parse_transaction t tx rollup_name = RunResult.ok pi ↔
      ∃ s, get_script tx = RunResult.ok s ∧
        parse_relevant_inscriptions t rollup_name s = some pi := by
  unfold parse_transaction
  cases hg : get_script tx with
  | abort => simp
  | err => simp
  | ok s =>
    cases hp : parse_relevant_inscriptions t rollup_name s with
    | none => simp [hp]
    | some q => simp [hp]

/-- The txdata walk computes the id list and the two-zero-byte filter. -/
theorem extraction_scan_eq {Tx : Type} (txid : Tx → List Nat)
    (txdata : List (TxWrapper Tx)) :
    extraction_scan txid txdata =
      (txdata.map (fun w => txid w.transaction),
       (txdata.filter (fun w => decide ((txid w.transaction).take 2 = [0, 0]))).map
         (fun w => w.transaction)) := by
  induction txdata with
  | nil => rfl
  | cons w rest ih =>
    simp only [extraction_scan, ih, List.map_cons, List.filter_cons]
    by_cases hc : (txid w.transaction).take 2 = [0, 0]
    · simp [hc]
    · simp [hc]

/-- A run of height-not-yet-produced responses keeps the hash loop
retrying, for every run length. -/
theorem hash_loop_replicate {α : Type} (msg : String) :
    ∀ n : Nat, hash_loop (List.replicate n (RpcResp.rpcErr (-8) msg) : List (RpcResp α)) =
      LoopOutcome.waiting n := by
  intro n
  induction n with
  | zero => rfl
  | succ k ih => simp [List.replicate_succ, hash_loop, ih]

/-- When the finality loop breaks, it breaks at the first response that
reaches height + FINALITY_DEPTH, after one sleep per earlier response. -/
theorem finality_loop_spec (height : Nat) :
    ∀ (tips : List Nat) (n : Nat) (rem : List Nat),
      finality_loop height tips = some (n, rem) →
        n < tips.length ∧ height + FINALITY_DEPTH ≤ tips.getD n 0 ∧
        ∀ i, i < n → tips.getD i 0 < height + FINALITY_DEPTH := by
  intro tips
  induction tips with
  | nil => intro n rem h; simp [finality_loop] at h
  | cons tip rest ih =>
    intro n rem h
    simp only [finality_loop] at h
    by_cases hc : height + FINALITY_DEPTH ≤ tip
    · rw [if_pos hc] at h
      simp only [Option.some.injEq, Prod.mk.injEq] at h
      obtain ⟨hn, -⟩ := h
      subst hn
      refine ⟨by simp, by simpa using hc, ?_⟩
      intro i hi
      omega
    · rw [if_neg hc] at h
      cases hfl : finality_loop height rest with
      | none => rw [hfl] at h; simp at h
      | some p =>
        rw [hfl] at h
        simp only [Option.some.injEq, Prod.mk.injEq] at h
        obtain ⟨hn, -⟩ := h
        obtain ⟨m, rem2⟩ := p
        obtain ⟨h1, h2, h3⟩ := ih m rem2 hfl
        subst hn
        refine ⟨by simpa using Nat.succ_lt_succ h1, by simpa using h2, ?_⟩
        intro i hi
        cases i with
        | zero => simpa using Nat.lt_of_not_le hc
        | succ j =>
          have := h3 j (by omega)
          simpa using this

/-- While every polled tip is short of height + FINALITY_DEPTH, the
finality loop keeps polling. -/
theorem finality_loop_none (height : Nat) :
    ∀ tips : List Nat, (∀ tip, tip ∈ tips → tip < height + FINALITY_DEPTH) →
      finality_loop height tips = none := by
  intro tips
  induction tips with
  | nil => intro _; rfl
  | cons tip rest ih =>
    intro h
    have htip : tip < height + FINALITY_DEPTH := h tip (List.mem_cons_self tip rest)
    simp only [finality_loop, if_neg (Nat.not_le.mpr htip)]
    rw [ih (fun x hx => h x (List.mem_cons_of_mem tip hx))]

/-! Claim theorems. -/

/-- C1: contrary to the claim, recover_sender_and_hash_from_tx does not
return a recoverable failure on malformed fields: under the byte-length
well-formedness checks of the external backend, a transaction whose
decoded envelope carries a one-byte public_key — or a one-byte signature —
makes the function abort (panic at the unwrap of parsers.rs line 133 resp.
134) instead of returning an error. -/
theorem C1_malformed_fields_abort :
    recover_sender_and_hash_from_tx cryptoLen tags0 txMalformedKey nameSov =
      RunResult.abort ∧
    recover_sender_and_hash_from_tx cryptoLen tags0 txMalformedSig nameSov =
      RunResult.abort :=
  ⟨by decide, by decide⟩

/-- C2: a witness script built exactly per the section-4.1 grammar —
BODY_TAG, OP_IF, ROLLUP_NAME_TAG, the rollup name, SIGNATURE_TAG, the
signature, PUBLICKEY_TAG, the public key, RANDOM_TAG, the nonce, BODY_TAG,
a non-empty chunk sequence, OP_ENDIF — decodes under that name to exactly
the concatenated body with that signature and key, for every tag choice;
and the spec's example literal: the "sov-btc" envelope with body [1, 2, 3]
decodes unchanged under "sov-btc" and fails under "sov-btc2". -/
theorem C2_round_trip (t : Tags) (rollup_name signature public_key nonce : List Nat)
    (chunks : List (List Nat)) (hne : chunks ≠ []) :
    parse_relevant_inscriptions t rollup_name
        (envelope t rollup_name signature public_key nonce chunks) =
      some ⟨chunks.flatten, signature, public_key⟩ ∧
    parse_relevant_inscriptions tags0 nameSov
        (envelope tags0 nameSov [9] [8] [7] [[1, 2, 3]]) =
      some ⟨[1, 2, 3], [9], [8]⟩ ∧
    parse_relevant_inscriptions tags0 nameSov2
        (envelope tags0 nameSov [9] [8] [7] [[1, 2, 3]]) = none :=
  ⟨parse_envelope t rollup_name signature public_key nonce chunks, by decide, by decide⟩

/-- C3: once parsing succeeded and both embedded fields are well-formed
for the backend, authentication succeeds iff the signature verifies under
the embedded key against the double-SHA256 digest of the still-compressed
body; success returns exactly the serialised key bytes paired with that
digest, failure returns an error and nothing else. -/
theorem C3_auth (c : Crypto) (t : Tags) (tx : Transaction) (rollup_name : List Nat)
    (pi : ParsedInscription)
    (hparse : parse_transaction t tx rollup_name = RunResult.ok pi)
    (hpk : c.pubkey_ok pi.public_key = true)
    (hsig : c.sig_ok pi.signature = true) :
    (c.verify (c.sha256d pi.body) pi.signature pi.public_key = true →
      recover_sender_and_hash_from_tx c t tx rollup_name =
        RunResult.ok (c.pubkey_serialize pi.public_key, c.sha256d pi.body)) ∧
    (c.verify (c.sha256d pi.body) pi.signature pi.public_key = false →
      recover_sender_and_hash_from_tx c t tx rollup_name = RunResult.err) ∧
    (∀ out, recover_sender_and_hash_from_tx c t tx rollup_name = RunResult.ok out →
      c.verify (c.sha256d pi.body) pi.signature pi.public_key = true ∧
      out = (c.pubkey_serialize pi.public_key, c.sha256d pi.body)) := by
  obtain ⟨s, hg, hp⟩ := (parse_transaction_ok t tx rollup_name pi).mp hparse
  unfold recover_sender_and_hash_from_tx
  rw [hg]
  simp only
  rw [hp]
  simp only
  rw [hpk, hsig]
  simp only [if_true]
  cases hv : c.verify (c.sha256d pi.body) pi.signature pi.public_key <;> simp [hv]

/-- C4: when a match attempt started at instruction i fails, the scan loop
resumes exactly at the stream left after the instructions the attempt
consumed: that consumed, non-empty prefix is never re-offered, and the
whole scan result equals the scan of the resume suffix alone. -/
theorem C4_no_rewind (t : Tags) (rollup_name : List Nat) (i : Instr)
    (rest resume : List Instr)
    (h : tryOnce t rollup_name i rest = Sum.inr resume) :
    (∃ consumed, consumed ≠ [] ∧ i :: rest = consumed ++ resume) ∧
    parse_relevant_inscriptions t rollup_name (i :: rest) =
      parse_relevant_inscriptions t rollup_name resume := by
  constructor
  · obtain ⟨pre, hpre⟩ := tryOnce_inr_suffix t rollup_name i rest resume h
    exact ⟨i :: pre, by simp, by rw [← hpre, List.cons_append]⟩
  · rw [parse_cons t rollup_name i rest, h]

/-- C5 counterexample: a script that is an envelope with no body-chunk
push at all — the second BODY_TAG push immediately followed by OP_ENDIF —
still decodes, to an inscription with empty body, refuting that at least
one body-chunk push is required. -/
theorem C5_counterexample :
    parse_relevant_inscriptions tags0 nameSov
        (envelope tags0 nameSov [9] [8] [7] []) =
      some ⟨[], [9], [8]⟩ := by
  decide

/-- C5 amended: the body section consists of zero or more body-chunk
pushes before the terminating OP_ENDIF; with zero chunks the parse
succeeds and returns an empty body. -/
theorem C5_empty_body (t : Tags) (rollup_name signature public_key nonce : List Nat) :
    parse_relevant_inscriptions t rollup_name
        (envelope t rollup_name signature public_key nonce []) =
      some ⟨[], signature, public_key⟩ :=
  parse_envelope t rollup_name signature public_key nonce []

/-- C6: the completeness proof is exactly the sequence of full
transactions whose id starts with two zero bytes, in block order, and in
particular an ordered sublist of the block's transaction list. -/
theorem C6_completeness {Tx : Type} (txid : Tx → List Nat)
    (txdata : List (TxWrapper Tx)) :
    (get_extraction_proof txid txdata).2 =
      (txdata.filter (fun w => decide ((txid w.transaction).take 2 = [0, 0]))).map
        (fun w => w.transaction) ∧
    List.Sublist ((get_extraction_proof txid txdata).2)
      (txdata.map (fun w => w.transaction)) := by
  have h := extraction_scan_eq txid txdata
  constructor
  · show (extraction_scan txid txdata).2 = _
    rw [h]
  · show List.Sublist ((extraction_scan txid txdata).2) _
    rw [h]
    exact List.Sublist.map _ (List.filter_sublist _)

/-- C7: the inclusion proof is the ordered list of every transaction's id,
one entry per transaction of the block, so its length equals the block's
transaction count. -/
theorem C7_inclusion {Tx : Type} (txid : Tx → List Nat)
    (txdata : List (TxWrapper Tx)) :
    (get_extraction_proof txid txdata).1.txs =
      txdata.map (fun w => txid w.transaction) ∧
    ((get_extraction_proof txid txdata).1.txs).length = txdata.length := by
  have h := extraction_scan_eq txid txdata
  have h1 : (get_extraction_proof txid txdata).1.txs =
      txdata.map (fun w => txid w.transaction) := by
    show (extraction_scan txid txdata).1 = _
    rw [h]
  exact ⟨h1, by rw [h1, List.length_map]⟩

/-- C8: get_block_at classifies block-hash lookup failures — a success
returns the fetched block at once; RPC error code -8 sleeps and retries,
with no bound on the number of retries; any other RPC error and any
non-RPC error are fatal immediately, their message passed on
uninterpreted. -/
theorem C8_classify {H B : Type} (gb : H → List Nat → B) (rollup_name : List Nat) :
    (∀ (hsh : H) (rest : List (RpcResp H)),
        get_block_at gb rollup_name (RpcResp.ok hsh :: rest) =
          LoopOutcome.got 0 (gb hsh rollup_name)) ∧
    (∀ (code : Int) (msg : String) (rest : List (RpcResp H)), code ≠ -8 →
        get_block_at gb rollup_name (RpcResp.rpcErr code msg :: rest) =
          LoopOutcome.fatal 0 msg) ∧
    (∀ (msg : String) (rest : List (RpcResp H)),
        get_block_at gb rollup_name (RpcResp.otherErr msg :: rest) =
          LoopOutcome.fatal 0 msg) ∧
    (∀ (msg : String) (rest : List (RpcResp H)) (n : Nat) (hsh : H),
        hash_loop rest = LoopOutcome.got n hsh →
        get_block_at gb rollup_name (RpcResp.rpcErr (-8) msg :: rest) =
          LoopOutcome.got (n + 1) (gb hsh rollup_name)) ∧
    (∀ (msg : String) (n : Nat),
        hash_loop (List.replicate n (RpcResp.rpcErr (-8) msg) : List (RpcResp H)) =
          LoopOutcome.waiting n) := by
  refine ⟨fun hsh rest => rfl, ?_, fun msg rest => rfl, ?_, fun msg n => hash_loop_replicate msg n⟩
  · intro code msg rest hc
    simp [get_block_at, hash_loop, hc]
  · intro msg rest n hsh hl
    simp [get_block_at, hash_loop, hl]

/-- C9: get_finalized_at returns no block while every polled tip height is
below height + FINALITY_DEPTH (= 4), however many polls happen; when it
does return, it returns the block fetched at the requested height, having
slept once per poll that observed a tip below the threshold, and the
first sufficient tip ends the polling. -/
theorem C9_finality {H B : Type} (get_block_hash : Nat → H) (gb : H → List Nat → B)
    (rollup_name : List Nat) (height : Nat) (tips : List Nat) :
    FINALITY_DEPTH = 4 ∧ POLLING_INTERVAL = 10 ∧
    ((∀ tip, tip ∈ tips → tip < height + FINALITY_DEPTH) →
      get_finalized_at get_block_hash gb rollup_name height tips = none) ∧
    (∀ (n : Nat) (b : B),
      get_finalized_at get_block_hash gb rollup_name height tips = some (n, b) →
        b = gb (get_block_hash height) rollup_name ∧
        n < tips.length ∧
        height + FINALITY_DEPTH ≤ tips.getD n 0 ∧
        ∀ i, i < n → tips.getD i 0 < height + FINALITY_DEPTH) := by
  refine ⟨rfl, rfl, ?_, ?_⟩
  · intro h
    unfold get_finalized_at
    rw [finality_loop_none height tips h]
  · intro n b h
    unfold get_finalized_at at h
    cases hfl : finality_loop height tips with
    | none => rw [hfl] at h; simp at h
    | some p =>
      obtain ⟨m, rem⟩ := p
      rw [hfl] at h
      simp only [Option.some.injEq, Prod.mk.injEq] at h
      obtain ⟨hn, hb⟩ := h
      subst hn
      subst hb
      obtain ⟨h1, h2, h3⟩ := finality_loop_spec height tips m rem hfl
      exact ⟨rfl, h1, h2, h3⟩

/-- C10: a transaction with an empty input list makes parse_transaction —
and recover_sender_and_hash_from_tx — abort (panic at the tx.input[0]
index of parsers.rs line 27) rather than return a decode failure, and the
missing-script decode failure occurs exactly when a first input exists but
carries no tapscript witness. -/
theorem C10_empty_input (c : Crypto) (t : Tags) (tx : Transaction)
    (rollup_name : List Nat) :
    (tx.input = [] →
      parse_transaction t tx rollup_name = RunResult.abort ∧
      recover_sender_and_hash_from_tx c t tx rollup_name = RunResult.abort) ∧
    (get_script tx = RunResult.err ↔
      ∃ i rest, tx.input = i :: rest ∧ TxIn.tapscript i = none) := by
  constructor
  · intro h
    have hg : get_script tx = RunResult.abort := by
      unfold get_script
      rw [h]
    constructor
    · unfold parse_transaction
      rw [hg]
    · unfold recover_sender_and_hash_from_tx
      rw [hg]
  · cases htx : tx.input with
    | nil => simp [get_script, htx]
    | cons i rest =>
      cases hts : TxIn.tapscript i with
      | none => simp [get_script, htx, hts]
      | some s => simp [get_script, htx, hts]

/-! Witnesses. -/

/-- C2 witness, at the spec's example literal. -/
theorem C2_round_trip_witness :
    ([[1, 2, 3]] : List (List Nat)) ≠ [] ∧
    (parse_relevant_inscriptions tags0 nameSov
        (envelope tags0 nameSov [9] [8] [7] [[1, 2, 3]]) =
      some ⟨[1, 2, 3], [9], [8]⟩ ∧
    parse_relevant_inscriptions tags0 nameSov
        (envelope tags0 nameSov [9] [8] [7] [[1, 2, 3]]) =
      some ⟨[1, 2, 3], [9], [8]⟩ ∧
    parse_relevant_inscriptions tags0 nameSov2
        (envelope tags0 nameSov [9] [8] [7] [[1, 2, 3]]) = none) :=
  ⟨by decide, C2_round_trip tags0 nameSov [9] [8] [7] [[1, 2, 3]] (by decide)⟩

/-- C3 witness, on the all-accepting backend and the good fixture
transaction. -/
theorem C3_auth_witness :
    parse_transaction tags0 txGood nameSov = RunResult.ok ⟨[1, 2, 3], [9], [8]⟩ ∧
    Crypto.pubkey_ok cryptoTrue [8] = true ∧
    Crypto.sig_ok cryptoTrue [9] = true ∧
    ((Crypto.verify cryptoTrue (Crypto.sha256d cryptoTrue [1, 2, 3]) [9] [8] = true →
      recover_sender_and_hash_from_tx cryptoTrue tags0 txGood nameSov =
        RunResult.ok (Crypto.pubkey_serialize cryptoTrue [8],
          Crypto.sha256d cryptoTrue [1, 2, 3])) ∧
    (Crypto.verify cryptoTrue (Crypto.sha256d cryptoTrue [1, 2, 3]) [9] [8] = false →
      recover_sender_and_hash_from_tx cryptoTrue tags0 txGood nameSov =
        RunResult.err) ∧
    (∀ out, recover_sender_and_hash_from_tx cryptoTrue tags0 txGood nameSov =
        RunResult.ok out →
      Crypto.verify cryptoTrue (Crypto.sha256d cryptoTrue [1, 2, 3]) [9] [8] = true ∧
      out = (Crypto.pubkey_serialize cryptoTrue [8],
        Crypto.sha256d cryptoTrue [1, 2, 3]))) :=
  ⟨by decide, rfl, rfl,
    C3_auth cryptoTrue tags0 txGood nameSov ⟨[1, 2, 3], [9], [8]⟩ (by decide) rfl rfl⟩

/-- C4 witness: an opcode at the head of the stream fails the attempt with
the tail as resume point. -/
theorem C4_no_rewind_witness :
    tryOnce tags0 nameSov (Instr.op 0) [] = Sum.inr [] ∧
    ((∃ consumed, consumed ≠ [] ∧ [Instr.op 0] = consumed ++ ([] : List Instr)) ∧
    parse_relevant_inscriptions tags0 nameSov [Instr.op 0] =
      parse_relevant_inscriptions tags0 nameSov []) :=
  ⟨rfl, C4_no_rewind tags0 nameSov (Instr.op 0) [] [] rfl⟩

/-- C8 witness: a non-not-found error code fails with zero retries, and a
single not-found response followed by a hash completes after one retry. -/
theorem C8_classify_witness :
    ((0 : Int) ≠ -8 ∧
      get_block_at (fun (x : Nat) (_ : List Nat) => x) []
        [RpcResp.rpcErr 0 "oops"] = LoopOutcome.fatal 0 "oops") ∧
    (hash_loop ([RpcResp.ok 5] : List (RpcResp Nat)) = LoopOutcome.got 0 5 ∧
      get_block_at (fun (x : Nat) (_ : List Nat) => x) []
        [RpcResp.rpcErr (-8) "wait", RpcResp.ok 5] = LoopOutcome.got 1 5) :=
  ⟨⟨by decide,
      (C8_classify (fun (x : Nat) (_ : List Nat) => x) []).2.1 0 "oops" [] (by decide)⟩,
    ⟨rfl,
      (C8_classify (fun (x : Nat) (_ : List Nat) => x) []).2.2.2.1 "wait"
        [RpcResp.ok 5] 0 5 rfl⟩⟩

/-- C9 witness: with tips [3] and height 2 the loop keeps polling; with
tips [3, 9] it returns the fetched block after one sleep, the second poll
being the first to reach 2 + FINALITY_DEPTH. -/
theorem C9_finality_witness :
    ((∀ tip, tip ∈ ([3] : List Nat) → tip < 2 + FINALITY_DEPTH) ∧
      get_finalized_at (fun (_ : Nat) => (0 : Nat)) (fun (h : Nat) (_ : List Nat) => h)
        [] 2 [3] = none) ∧
    (get_finalized_at (fun (_ : Nat) => (0 : Nat)) (fun (h : Nat) (_ : List Nat) => h)
        [] 2 [3, 9] = some (1, 0) ∧
      ((0 : Nat) = (fun (h : Nat) (_ : List Nat) => h) ((fun (_ : Nat) => (0 : Nat)) 2) [] ∧
        1 < ([3, 9] : List Nat).length ∧
        2 + FINALITY_DEPTH ≤ ([3, 9] : List Nat).getD 1 0 ∧
        ∀ i, i < 1 → ([3, 9] : List Nat).getD i 0 < 2 + FINALITY_DEPTH)) :=
  ⟨⟨by decide,
      (C9_finality (fun (_ : Nat) => (0 : Nat)) (fun (h : Nat) (_ : List Nat) => h)
          [] 2 [3]).2.2.1 (by decide)⟩,
    ⟨by decide,
      (C9_finality (fun (_ : Nat) => (0 : Nat)) (fun (h : Nat) (_ : List Nat) => h)
          [] 2 [3, 9]).2.2.2 1 0 (by decide)⟩⟩

/-- C10 witness: the no-input fixture transaction aborts both entry
points. -/
theorem C10_empty_input_witness :
    Transaction.input txNoInput = [] ∧
    (parse_transaction tags0 txNoInput nameSov = RunResult.abort ∧
      recover_sender_and_hash_from_tx cryptoLen tags0 txNoInput nameSov =
        RunResult.abort) :=
  ⟨rfl, (C10_empty_input cryptoLen tags0 txNoInput nameSov).1 rfl⟩

end BitcoinDa
